import Mathlib

/-!
Shallow embedding of `src/njs-app/src/base-server-audit.js`.

The source has two parts: `startServer` (restify server bootstrap with
parameter validation, middleware, admin routes and uncaught-exception
handlers) and `auditLogger` (a factory returning an `audit(req, res,
route, err)` callback with custom `req` / `res` serializers).

JavaScript values that the audited code inspects are modelled by the
small inductive `JsValue`; objects whose internals the code never looks
into are opaque references.  The per-request timers object built by
`auditRequestSerializer` is modelled as an insertion-ordered association
list with JS-object assignment semantics (update in place, else append).
Effectful steps (listening, logging, exiting the process) are recorded
as explicit effect values.
-/

namespace BaseServerAudit

/-- A JavaScript value, as far as this module inspects one.  Objects the
code treats as opaque (loggers, error payloads) are `obj` references. -/
inductive JsValue where
  | undef
  | nullV
  | bool (b : Bool)
  | num (n : Int)
  | str (s : String)
  | obj (id : Nat)
  deriving DecidableEq

/-- JS truthiness, used by the `!x` checks in `startServer`. -/
def JsValue.truthy : JsValue → Bool
  | .undef => false
  | .nullV => false
  | .bool b => b
  | .num n => n != 0
  | .str s => s != ""
  | .obj _ => true

/-- The `typeof x === "number"` test used on the Response-Time value. -/
def JsValue.isNumber : JsValue → Bool
  | .num _ => true
  | _ => false

/-- One entry of `req.timers`: a phase name and a high-resolution
`[seconds, nanoseconds]` pair (`time.name`, `time.time` in the source). -/
structure TimerSample where
  name : String
  time : Nat × Nat
  deriving DecidableEq

/-- The request fields read by the audit logger: `req.method`, `req.url`,
`req.timers` (possibly absent) and `req._time` (start timestamp, ms). -/
structure Request where
  method : String
  url : String
  timers : Option (List TimerSample)
  _time : Int
  deriving DecidableEq

/-- The captured response body `res._body`: either a restify `HttpError`
instance carrying a `.body` payload, or a plain value. -/
inductive CapturedBody where
  | httpError (body : JsValue)
  | raw (v : JsValue)
  deriving DecidableEq

/-- The response fields read by the audit logger: `res.statusCode`,
`res._body` (possibly absent) and the value of `res.get("Response-Time")`
(`JsValue.undef` when the header is not set). -/
structure Response where
  statusCode : Nat
  _body : Option CapturedBody
  responseTime : JsValue
  deriving DecidableEq

/-- The `options` argument of `auditLogger`; only `options.body` is
consulted by the serializers (`options.log` merely supplies the sink). -/
structure Options where
  body : JsValue
  deriving DecidableEq

/-- JS object assignment `o[k] = v` on an insertion-ordered association
list: overwrite the existing binding in place, otherwise append. -/
def objSet : List (String × Nat) → String → Nat → List (String × Nat)
  | [], k, v => [(k, v)]
  | p :: o, k, v => if p.1 = k then (k, v) :: o else p :: objSet o k v

/-- JS object read `o[k]` on the association list. -/
def objGet : List (String × Nat) → String → Option Nat
  | [], _ => none
  | p :: o, k => if p.1 = k then some p.2 else objGet o k

/-- `Math.floor((1000 * t[0]) + (t[1] / 1000000))` on a nonnegative
high-resolution pair; with natural division this is exactly the floor. -/
def hrMillis (t : Nat × Nat) : Nat :=
  1000 * t.1 + t.2 / 1000000

/-- One iteration of the `forEach` loop over `req.timers`:
`timers[time.name] = Math.floor((1000 * t[0]) + (t[1] / 1000000))`. -/
def recordTimer (o : List (String × Nat)) (t : TimerSample) : List (String × Nat) :=
  objSet o t.name (hrMillis t.time)

/-- The full `forEach` over `(req.timers || [])`, starting from `{}`. -/
def buildTimers (ts : List TimerSample) : List (String × Nat) :=
  List.foldl recordTimer [] ts

/-- The last timer sample in the list carrying a given phase name; used
to characterise which sample of a phase survives the `forEach` loop. -/
def lastSample (k : String) : List TimerSample → Option TimerSample
  | [] => none
  | t :: ts =>
    match lastSample k ts with
    | some u => some u
    | none => if t.name = k then some t else none

/-- Result of the `req` serializer: the literal `false` marker for a
falsy request, else the `{method, url, timers}` record. -/
inductive SerializedReq where
  | falseMarker
  | record (method : String) (url : String) (timers : List (String × Nat))
  deriving DecidableEq

/-- `auditRequestSerializer` from the source: `false` for a falsy `req`,
else `{method: req.method, url: req.url, timers}` with `timers` built by
the `forEach` over `(req.timers || [])`. -/
def auditRequestSerializer : Option Request → SerializedReq
  | none => .falseMarker
  | some r => .record r.method r.url (buildTimers (r.timers.getD []))

/-- Result of the `res` serializer: the literal `false` marker for a
falsy response, else the `{statusCode, body}` record (`none` stands for
the JS `undefined` body, which the logging backend omits). -/
inductive SerializedRes where
  | falseMarker
  | record (statusCode : Nat) (body : Option JsValue)
  deriving DecidableEq

/-- The body chosen when `options.body === true`: the `.body` payload of
an `HttpError` instance, otherwise the raw `res._body` value. -/
def capturedBodyValue : Option CapturedBody → Option JsValue
  | some (.httpError b) => some b
  | some (.raw v) => some v
  | none => none

/-- `auditResponseSerializer` from the source: `false` for a falsy
`res`, else `{statusCode: res.statusCode, body}` where `body` is only
assigned when `options.body === true`. -/
def auditResponseSerializer (options : Options) : Option Response → SerializedRes
  | none => .falseMarker
  | some r =>
    .record r.statusCode
      (if options.body = JsValue.bool true then capturedBodyValue r._body else none)

/-- Bunyan log severities used by this module. -/
inductive LogLevel where
  | info
  | error
  | fatal
  deriving DecidableEq

/-- One structured log record emitted by the audit callback through
`log.info(obj, "handled: %d", res.statusCode)`. -/
structure LogEntry where
  level : LogLevel
  req : Request
  res : Response
  err : Option JsValue
  latency : Int
  msg : String
  deriving DecidableEq

/-- The latency computation at the top of `audit`: take the
Response-Time value when `typeof` it is `number`, otherwise
`Date.now() - req._time` (`now` stands for `Date.now()`). -/
def computeLatency (req : Request) (res : Response) (now : Int) : Int :=
  match res.responseTime with
  | .num n => n
  | _ => now - req._time

/-- The `audit(req, res, route, err)` callback returned by
`auditLogger`: emits one INFO record `{req, res, err, latency}` with
message `handled: <statusCode>` and returns `true`.  The emitted log
records are made explicit as the first component of the result. -/
def audit (req : Request) (res : Response) (route : JsValue) (err : Option JsValue)
    (now : Int) : List LogEntry × Bool :=
  let latency := computeLatency req res now
  ([{ level := LogLevel.info, req := req, res := res, err := err, latency := latency,
      msg := "handled: " ++ toString res.statusCode }], true)

/-- A thrown JS error: its constructor name and message. -/
structure JsError where
  kind : String
  message : String
  deriving DecidableEq

/-- Observable steps `startServer` performs once validation passed, in
source order. -/
inductive Effect where
  | createServer (name : JsValue)
  | listen (port : JsValue)
  | usePre (mw : String)
  | useMiddleware (mw : String)
  | registerRoute (method : String) (path : String)
  | onServerUncaught
  | onProcessUncaught
  deriving DecidableEq

/-- The server handle returned by `startServer` (restify server bound to
the application name with the logger attached). -/
structure ServerHandle where
  name : JsValue
  log : JsValue
  deriving DecidableEq

/-- `startServer(appName, port, logger)`: throws a `TypeError` naming
the first falsy parameter in source order (`appName`, `logger`, `port`)
before performing any effect; otherwise creates the server, starts
listening, installs middleware, the two admin routes and the two
uncaught-exception handlers, and returns the handle. -/
def startServer (appName port logger : JsValue) : List Effect × Except JsError ServerHandle :=
  if appName.truthy = false then
    ([], .error ⟨"TypeError", "Require parameter appName in startServer(appName,port,logger)"⟩)
  else if logger.truthy = false then
    ([], .error ⟨"TypeError", "Require parameter logger in startServer(appName,port,logger)"⟩)
  else if port.truthy = false then
    ([], .error ⟨"TypeError", "Require parameter port in startServer(appName,port,logger)"⟩)
  else
    ([Effect.createServer appName, Effect.listen port,
      Effect.usePre "cors.preflight", Effect.useMiddleware "cors.actual",
      Effect.useMiddleware "acceptParser", Effect.useMiddleware "queryParser",
      Effect.useMiddleware "bodyParser",
      Effect.registerRoute "GET" "/_status", Effect.registerRoute "GET" "/api/admin/_routes",
      Effect.onServerUncaught, Effect.onProcessUncaught],
     .ok ⟨appName, logger⟩)

/-- Effects an uncaught-exception handler can perform. -/
inductive HandlerEffect where
  | log (level : LogLevel) (err : JsValue) (msg : String)
  | sendResponse (v : JsValue)
  | exitProcess (code : Nat)
  deriving DecidableEq

/-- The `server.on("uncaughtException", ...)` handler: log the error at
ERROR severity and send it back as the response; the process survives. -/
def serverUncaughtExp (err : JsValue) : List HandlerEffect :=
  [.log LogLevel.error err "uncaughtException", .sendResponse err]

/-- The `process.on("uncaughtException", ...)` handler: log the error at
FATAL severity, then `process.exit(1)`. -/
def processUncaughtExp (err : JsValue) : List HandlerEffect :=
  [.log LogLevel.fatal err "Uncaught fatal exception, process will exit now.",
   .exitProcess 1]

/-! ### Association-list lemmas for the timers object -/

lemma objGet_objSet_self (o : List (String × Nat)) (k : String) (v : Nat) :
    objGet (objSet o k v) k = some v := by
  induction o with
  | nil => simp [objSet, objGet]
  | cons p o ih =>
    by_cases h : p.1 = k
    · simp [objSet, objGet, h]
    · simp [objSet, objGet, h, ih]

lemma objGet_objSet_ne (o : List (String × Nat)) (k k2 : String) (v : Nat) (h : k ≠ k2) :
    objGet (objSet o k v) k2 = objGet o k2 := by
  induction o with
  | nil => simp [objSet, objGet, h]
  | cons p o ih =>
    by_cases hp : p.1 = k
    · simp [objSet, objGet, hp, h, fun hh => h (hp ▸ hh)]
    · simp [objSet, objGet, hp, ih]

lemma mem_keys_objSet (o : List (String × Nat)) (k a : String) (v : Nat) :
    a ∈ (objSet o k v).map Prod.fst ↔ a ∈ o.map Prod.fst ∨ a = k := by
  induction o with
  | nil => simp [objSet]
  | cons p o ih =>
    by_cases hp : p.1 = k
    · subst hp
      simp [objSet]
      tauto
    · simp [objSet, hp, ih]
      tauto

lemma nodup_keys_objSet (o : List (String × Nat)) (k : String) (v : Nat)
    (h : (o.map Prod.fst).Nodup) : ((objSet o k v).map Prod.fst).Nodup := by
  induction o with
  | nil => simp [objSet]
  | cons p o ih =>
    rw [List.map_cons, List.nodup_cons] at h
    by_cases hp : p.1 = k
    · subst hp
      simpa [objSet, List.nodup_cons] using h
    · rw [objSet]
      simp only [if_neg hp, List.map_cons, List.nodup_cons]
      refine ⟨?_, ih h.2⟩
      rw [mem_keys_objSet]
      push_neg
      exact ⟨h.1, hp⟩

lemma lastSample_eq_none (k : String) (ts : List TimerSample)
    (h : ∀ u ∈ ts, u.name ≠ k) : lastSample k ts = none := by
  induction ts with
  | nil => rfl
  | cons t ts ih =>
    rw [lastSample, ih (fun u hu => h u (List.mem_cons_of_mem t hu))]
    simp [h t (List.mem_cons_self t ts)]

lemma lastSample_append (k : String) (l₁ l₂ : List TimerSample) :
    lastSample k (l₁ ++ l₂) =
      match lastSample k l₂ with
      | some u => some u
      | none => lastSample k l₁ := by
  induction l₁ with
  | nil =>
    simp only [List.nil_append]
    cases lastSample k l₂ <;> rfl
  | cons t l₁ ih =>
    cases h2 : lastSample k l₂ with
    | some u => simp only [List.cons_append, lastSample, List.append_eq, ih, h2]
    | none => simp only [List.cons_append, lastSample, List.append_eq, ih, h2]

lemma lastSample_of_nodup (ts : List TimerSample) (t : TimerSample)
    (hnd : (ts.map TimerSample.name).Nodup) (ht : t ∈ ts) :
    lastSample t.name ts = some t := by
  induction ts with
  | nil => cases ht
  | cons u ts ih =>
    rw [List.map_cons, List.nodup_cons] at hnd
    rcases List.mem_cons.mp ht with rfl | hmem
    · have hnone : lastSample t.name ts = none :=
        lastSample_eq_none _ _ (fun w hw hweq => hnd.1 (hweq ▸ List.mem_map_of_mem TimerSample.name hw))
      rw [lastSample, hnone]
      simp
    · rw [lastSample, ih hnd.2 hmem]

lemma mem_keys_of_objGet (o : List (String × Nat)) (k : String) (v : Nat)
    (h : objGet o k = some v) : k ∈ o.map Prod.fst := by
  induction o with
  | nil => simp [objGet] at h
  | cons p o ih =>
    rw [objGet] at h
    by_cases hp : p.1 = k
    · simp [hp]
    · rw [if_neg hp] at h
      simp [ih h]

lemma objGet_foldl_recordTimer (ts : List TimerSample) :
    ∀ (acc : List (String × Nat)) (k : String),
      objGet (List.foldl recordTimer acc ts) k =
        match lastSample k ts with
        | some t => some (hrMillis t.time)
        | none => objGet acc k := by
  induction ts with
  | nil =>
    intro acc k
    rfl
  | cons t ts ih =>
    intro acc k
    rw [List.foldl_cons, ih]
    cases hls : lastSample k ts with
    | some u => simp [lastSample, hls]
    | none =>
      by_cases hn : t.name = k
      · subst hn
        simp [lastSample, hls, recordTimer, objGet_objSet_self]
      · simp [lastSample, hls, hn, recordTimer, objGet_objSet_ne _ _ _ _ hn]

lemma nodup_keys_foldl_recordTimer (ts : List TimerSample) :
    ∀ (acc : List (String × Nat)), (acc.map Prod.fst).Nodup →
      ((List.foldl recordTimer acc ts).map Prod.fst).Nodup := by
  induction ts with
  | nil => intro acc h; exact h
  | cons t ts ih =>
    intro acc h
    rw [List.foldl_cons]
    exact ih _ (nodup_keys_objSet _ _ _ h)

/-- The source formula `Math.floor((1000 * t[0]) + (t[1] / 1000000))` over
exact rationals agrees with the natural-number computation `hrMillis`. -/
lemma hrMillis_floor (t : Nat × Nat) :
    (hrMillis t : ℤ) = ⌊((t.1 : ℚ) * 1000 + (t.2 : ℚ) / 1000000)⌋ := by
  have h1 : ((t.1 : ℚ) * 1000 + (t.2 : ℚ) / 1000000) =
      ((1000 * t.1 : ℤ) : ℚ) + ((t.2 : ℤ) : ℚ) / ((1000000 : ℕ) : ℚ) := by
    push_cast
    ring
  rw [h1, Int.floor_int_add, Rat.floor_intCast_div_natCast]
  rw [hrMillis]
  push_cast [Int.ofNat_div]
  ring

/-! ### Claim theorems -/

/-- Claim C1, counterexample: a request whose timers list holds two
samples named `a`, first `(0, 0)` then `(1, 0)`, serialises to a timers
mapping with `a` bound to `1000`, while the first sample would convert
to `floor(0 * 1000 + 0 / 1e6) = 0`; so it is not the case that the
mapping binds every sample name to the conversion of that sample. -/
theorem timers_conversion_counterexample :
    (TimerSample.mk "a" (0, 0)) ∈ [TimerSample.mk "a" (0, 0), TimerSample.mk "a" (1, 0)] ∧
    auditRequestSerializer
        (some ⟨"GET", "/x", some [TimerSample.mk "a" (0, 0), TimerSample.mk "a" (1, 0)], 0⟩) =
      SerializedReq.record "GET" "/x" [("a", 1000)] ∧
    ((1000 : ℤ) ≠ ⌊((0 : ℚ) * 1000 + (0 : ℚ) / 1000000)⌋) := by
  refine ⟨by decide, by decide, by norm_num⟩

/-- Claim C1 (amended with pairwise distinct phase names): for a request
whose timer samples carry pairwise distinct names, every phase name of
the input appears in the produced timers mapping, bound to
`floor(seconds * 1000 + nanoseconds / 1e6)` for that sample. -/
theorem timers_conversion_of_distinct_names (r : Request) (ts : List TimerSample)
    (hts : r.timers = some ts) (hnd : (ts.map TimerSample.name).Nodup) :
    ∃ tm, auditRequestSerializer (some r) = SerializedReq.record r.method r.url tm ∧
      ∀ t ∈ ts, ∃ m : Nat, objGet tm t.name = some m ∧
        (m : ℤ) = ⌊((t.time.1 : ℚ) * 1000 + (t.time.2 : ℚ) / 1000000)⌋ := by
  refine ⟨buildTimers ts, by simp [auditRequestSerializer, hts], ?_⟩
  intro t ht
  refine ⟨hrMillis t.time, ?_, hrMillis_floor t.time⟩
  rw [buildTimers, objGet_foldl_recordTimer, lastSample_of_nodup ts t hnd ht]

/-- Witness for the amended claim C1 at a concrete two-phase request. -/
theorem timers_conversion_of_distinct_names_witness :
    ∃ tm, auditRequestSerializer
        (some ⟨"GET", "/w1", some [TimerSample.mk "a" (1, 2000000), TimerSample.mk "b" (0, 500000)], 0⟩) =
      SerializedReq.record "GET" "/w1" tm ∧
      ∀ t ∈ [TimerSample.mk "a" (1, 2000000), TimerSample.mk "b" (0, 500000)],
        ∃ m : Nat, objGet tm t.name = some m ∧
          (m : ℤ) = ⌊((t.time.1 : ℚ) * 1000 + (t.time.2 : ℚ) / 1000000)⌋ :=
  timers_conversion_of_distinct_names _ _ rfl (by decide)

/-- Claim C9: when several samples share a phase name, the serialised
timers mapping holds that name exactly once, bound to the conversion of
the last such sample in the list. -/
theorem timers_last_sample_wins (r : Request) (ts₁ ts₂ : List TimerSample) (t : TimerSample)
    (hts : r.timers = some (ts₁ ++ t :: ts₂))
    (hafter : ∀ u ∈ ts₂, u.name ≠ t.name) :
    ∃ tm, auditRequestSerializer (some r) = SerializedReq.record r.method r.url tm ∧
      objGet tm t.name = some (hrMillis t.time) ∧
      List.count t.name (tm.map Prod.fst) = 1 := by
  refine ⟨buildTimers (ts₁ ++ t :: ts₂), by simp [auditRequestSerializer, hts], ?_⟩
  have hget : objGet (buildTimers (ts₁ ++ t :: ts₂)) t.name = some (hrMillis t.time) := by
    have hnone : lastSample t.name ts₂ = none := lastSample_eq_none _ _ hafter
    have h2 : lastSample t.name (t :: ts₂) = some t := by
      rw [lastSample, hnone]
      simp
    rw [buildTimers, objGet_foldl_recordTimer, lastSample_append, h2]
  refine ⟨hget, ?_⟩
  have hnd : ((buildTimers (ts₁ ++ t :: ts₂)).map Prod.fst).Nodup :=
    nodup_keys_foldl_recordTimer _ _ (by simp)
  exact List.count_eq_one_of_mem hnd (mem_keys_of_objGet _ _ _ hget)

/-- Witness for claim C9 at a request with a duplicated phase name. -/
theorem timers_last_sample_wins_witness :
    ∃ tm, auditRequestSerializer
        (some ⟨"GET", "/w9",
          some [TimerSample.mk "a" (0, 0), TimerSample.mk "a" (2, 0), TimerSample.mk "b" (1, 0)], 0⟩) =
      SerializedReq.record "GET" "/w9" tm ∧
      objGet tm "a" = some (hrMillis (2, 0)) ∧
      List.count "a" (tm.map Prod.fst) = 1 :=
  timers_last_sample_wins _ [TimerSample.mk "a" (0, 0)] [TimerSample.mk "b" (1, 0)]
    (TimerSample.mk "a" (2, 0)) rfl (by decide)

/-- Claim C2: with body capture disabled (`options.body` not strictly
equal to `true`), the serialised response carries no body, whatever the
captured payload of the response was. -/
theorem res_serializer_no_body_when_disabled (options : Options) (r : Response)
    (h : options.body ≠ JsValue.bool true) :
    auditResponseSerializer options (some r) = SerializedRes.record r.statusCode none := by
  simp [auditResponseSerializer, h]

/-- Witness for claim C2: a truthy but non-`true` body flag and a
response with a captured payload still serialise with no body. -/
theorem res_serializer_no_body_when_disabled_witness :
    auditResponseSerializer ⟨JsValue.str "yes"⟩
        (some ⟨200, some (CapturedBody.raw (JsValue.str "payload")), JsValue.undef⟩) =
      SerializedRes.record 200 none :=
  res_serializer_no_body_when_disabled _ _ (by decide)

/-- Claim C3: with body capture enabled, an `HttpError` captured body is
serialised as its embedded `.body` payload, and a plain captured body is
serialised as the raw captured value. -/
theorem res_serializer_unwraps_error_body (options : Options) (r : Response)
    (hb : options.body = JsValue.bool true) :
    (∀ p, r._body = some (CapturedBody.httpError p) →
        auditResponseSerializer options (some r) = SerializedRes.record r.statusCode (some p)) ∧
    (∀ v, r._body = some (CapturedBody.raw v) →
        auditResponseSerializer options (some r) = SerializedRes.record r.statusCode (some v)) := by
  constructor <;> intro x hx <;> simp [auditResponseSerializer, hb, capturedBodyValue, hx]

/-- Witness for claim C3 at a concrete wrapped and a concrete raw body. -/
theorem res_serializer_unwraps_error_body_witness :
    auditResponseSerializer ⟨JsValue.bool true⟩
        (some ⟨404, some (CapturedBody.httpError (JsValue.obj 7)), JsValue.undef⟩) =
      SerializedRes.record 404 (some (JsValue.obj 7)) ∧
    auditResponseSerializer ⟨JsValue.bool true⟩
        (some ⟨200, some (CapturedBody.raw (JsValue.str "ok")), JsValue.undef⟩) =
      SerializedRes.record 200 (some (JsValue.str "ok")) :=
  ⟨(res_serializer_unwraps_error_body ⟨JsValue.bool true⟩ _ rfl).1 (JsValue.obj 7) rfl,
   (res_serializer_unwraps_error_body ⟨JsValue.bool true⟩ _ rfl).2 (JsValue.str "ok") rfl⟩

/-- Claim C4: `startServer` with any falsy parameter fails with a
`TypeError` and performs no effect at all (in particular it never starts
listening); with all three parameters truthy it returns the live server
handle. -/
theorem startServer_config_validation (appName port logger : JsValue) :
    ((appName.truthy = false ∨ port.truthy = false ∨ logger.truthy = false) →
        ∃ e, startServer appName port logger = ([], Except.error e) ∧ e.kind = "TypeError") ∧
    (appName.truthy = true → port.truthy = true → logger.truthy = true →
        ∃ effs, startServer appName port logger = (effs, Except.ok ⟨appName, logger⟩)) := by
  constructor
  · intro h
    rw [startServer]
    split_ifs with h1 h2 h3
    · exact ⟨_, rfl, rfl⟩
    · exact ⟨_, rfl, rfl⟩
    · exact ⟨_, rfl, rfl⟩
    · simp_all
  · intro ha hp hl
    refine ⟨[Effect.createServer appName, Effect.listen port, Effect.usePre "cors.preflight",
      Effect.useMiddleware "cors.actual", Effect.useMiddleware "acceptParser",
      Effect.useMiddleware "queryParser", Effect.useMiddleware "bodyParser",
      Effect.registerRoute "GET" "/_status", Effect.registerRoute "GET" "/api/admin/_routes",
      Effect.onServerUncaught, Effect.onProcessUncaught], ?_⟩
    simp [startServer, ha, hp, hl]

/-- Witness for claim C4: a missing application name fails with a
`TypeError` and no effects; a fully configured call returns the handle. -/
theorem startServer_config_validation_witness :
    (∃ e, startServer JsValue.undef (JsValue.num 80) (JsValue.obj 0) = ([], Except.error e) ∧
        e.kind = "TypeError") ∧
    (∃ effs, startServer (JsValue.str "app") (JsValue.num 80) (JsValue.obj 0) =
        (effs, Except.ok ⟨JsValue.str "app", JsValue.obj 0⟩)) :=
  ⟨(startServer_config_validation JsValue.undef (JsValue.num 80) (JsValue.obj 0)).1
      (Or.inl (by decide)),
   (startServer_config_validation (JsValue.str "app") (JsValue.num 80) (JsValue.obj 0)).2
      (by decide) (by decide) (by decide)⟩

/-- Claim C5: the latency carried by the emitted log record is the
Response-Time value when that value is numeric, and otherwise the
current time minus the request start timestamp `req._time`. -/
theorem audit_latency_source (req : Request) (res : Response) (route : JsValue)
    (err : Option JsValue) (now : Int) :
    (∀ n : Int, res.responseTime = JsValue.num n →
        (audit req res route err now).1.map LogEntry.latency = [n]) ∧
    (res.responseTime.isNumber = false →
        (audit req res route err now).1.map LogEntry.latency = [now - req._time]) := by
  constructor
  · intro n hn
    simp [audit, computeLatency, hn]
  · intro h
    cases hres : res.responseTime <;>
      simp_all [audit, computeLatency, JsValue.isNumber, hres]

/-- Witness for claim C5: a numeric Response-Time of `42` is emitted
verbatim, and an absent one yields `now - req._time` (`9 - 2 = 7`). -/
theorem audit_latency_source_witness :
    (audit ⟨"GET", "/w5", none, 2⟩ ⟨200, none, JsValue.num 42⟩ JsValue.undef none 9).1.map
        LogEntry.latency = [42] ∧
    (audit ⟨"GET", "/w5", none, 2⟩ ⟨200, none, JsValue.undef⟩ JsValue.undef none 9).1.map
        LogEntry.latency = [9 - 2] :=
  ⟨(audit_latency_source ⟨"GET", "/w5", none, 2⟩ ⟨200, none, JsValue.num 42⟩
      JsValue.undef none 9).1 42 rfl,
   (audit_latency_source ⟨"GET", "/w5", none, 2⟩ ⟨200, none, JsValue.undef⟩
      JsValue.undef none 9).2 rfl⟩

/-- Claim C6: a falsy request or response serialises to the explicit
`false` marker, and a request with absent or empty timing data yields an
empty timers mapping. -/
theorem serializer_edge_cases (options : Options) (r : Request) :
    auditRequestSerializer none = SerializedReq.falseMarker ∧
    auditResponseSerializer options none = SerializedRes.falseMarker ∧
    (r.timers = none ∨ r.timers = some [] →
        auditRequestSerializer (some r) = SerializedReq.record r.method r.url []) := by
  refine ⟨rfl, rfl, ?_⟩
  rintro (h | h) <;> simp [auditRequestSerializer, h, buildTimers]

/-- Witness for claim C6 at a request without recorded timers. -/
theorem serializer_edge_cases_witness :
    auditRequestSerializer (some ⟨"GET", "/w6", none, 0⟩) =
      SerializedReq.record "GET" "/w6" [] :=
  (serializer_edge_cases ⟨JsValue.undef⟩ ⟨"GET", "/w6", none, 0⟩).2.2 (Or.inl rfl)

/-- Claim C7: the audit callback returns `true` on every input and emits
exactly one log record, at INFO severity, carrying the request, the
response, the error and the computed latency, with a summary message
naming the numeric status code. -/
theorem audit_single_info_entry (req : Request) (res : Response) (route : JsValue)
    (err : Option JsValue) (now : Int) :
    (audit req res route err now).2 = true ∧
    (audit req res route err now).1.length = 1 ∧
    ∀ e ∈ (audit req res route err now).1,
      e.level = LogLevel.info ∧ e.req = req ∧ e.res = res ∧ e.err = err ∧
      e.latency = computeLatency req res now ∧
      e.msg = "handled: " ++ toString res.statusCode := by
  refine ⟨rfl, rfl, ?_⟩
  intro e he
  simp only [audit, List.mem_singleton] at he
  subst he
  exact ⟨rfl, rfl, rfl, rfl, rfl, rfl⟩

/-- Witness for claim C7 at a concrete call: the single emitted record
has the stated fields. -/
theorem audit_single_info_entry_witness :
    (LogEntry.mk LogLevel.info ⟨"GET", "/w7", none, 2⟩ ⟨204, none, JsValue.undef⟩ none 3
        "handled: 204").level = LogLevel.info ∧
    (LogEntry.mk LogLevel.info ⟨"GET", "/w7", none, 2⟩ ⟨204, none, JsValue.undef⟩ none 3
        "handled: 204").req = ⟨"GET", "/w7", none, 2⟩ ∧
    (LogEntry.mk LogLevel.info ⟨"GET", "/w7", none, 2⟩ ⟨204, none, JsValue.undef⟩ none 3
        "handled: 204").res = ⟨204, none, JsValue.undef⟩ ∧
    (LogEntry.mk LogLevel.info ⟨"GET", "/w7", none, 2⟩ ⟨204, none, JsValue.undef⟩ none 3
        "handled: 204").err = none ∧
    (LogEntry.mk LogLevel.info ⟨"GET", "/w7", none, 2⟩ ⟨204, none, JsValue.undef⟩ none 3
        "handled: 204").latency =
      computeLatency ⟨"GET", "/w7", none, 2⟩ ⟨204, none, JsValue.undef⟩ 5 ∧
    (LogEntry.mk LogLevel.info ⟨"GET", "/w7", none, 2⟩ ⟨204, none, JsValue.undef⟩ none 3
        "handled: 204").msg = "handled: " ++ toString (204 : Nat) :=
  (audit_single_info_entry ⟨"GET", "/w7", none, 2⟩ ⟨204, none, JsValue.undef⟩
      JsValue.undef none 5).2.2
    (LogEntry.mk LogLevel.info ⟨"GET", "/w7", none, 2⟩ ⟨204, none, JsValue.undef⟩ none 3
      "handled: 204") (by simp [audit, computeLatency]; rfl)

/-- Claim C8: the process-scoped handler logs the error at FATAL
severity and then exits the process with the non-zero code 1, while the
request-scoped handler logs at ERROR severity and sends the error back
as the response without any process exit. -/
theorem uncaught_handlers_policy (err : JsValue) :
    processUncaughtExp err =
      [HandlerEffect.log LogLevel.fatal err "Uncaught fatal exception, process will exit now.",
       HandlerEffect.exitProcess 1] ∧
    (1 : Nat) ≠ 0 ∧
    serverUncaughtExp err =
      [HandlerEffect.log LogLevel.error err "uncaughtException",
       HandlerEffect.sendResponse err] ∧
    ∀ c : Nat, HandlerEffect.exitProcess c ∉ serverUncaughtExp err := by
  refine ⟨rfl, by decide, rfl, ?_⟩
  intro c
  simp [serverUncaughtExp]

/-- Claim C10: validation order is `appName`, then `logger`, then
`port`; the first falsy parameter in that order determines the raised
`TypeError` and its message names that parameter. -/
theorem startServer_validation_order (appName port logger : JsValue) :
    (appName.truthy = false →
        startServer appName port logger =
          ([], Except.error ⟨"TypeError",
              "Require parameter appName in startServer(appName,port,logger)"⟩)) ∧
    (appName.truthy = true → logger.truthy = false →
        startServer appName port logger =
          ([], Except.error ⟨"TypeError",
              "Require parameter logger in startServer(appName,port,logger)"⟩)) ∧
    (appName.truthy = true → logger.truthy = true → port.truthy = false →
        startServer appName port logger =
          ([], Except.error ⟨"TypeError",
              "Require parameter port in startServer(appName,port,logger)"⟩)) := by
  refine ⟨?_, ?_, ?_⟩ <;> intros <;> simp_all [startServer]

/-- Witness for claim C10: with several falsy parameters the raised
error is the one of the first falsy parameter in the order `appName`,
`logger`, `port`. -/
theorem startServer_validation_order_witness :
    startServer JsValue.undef JsValue.undef JsValue.undef =
      ([], Except.error ⟨"TypeError",
          "Require parameter appName in startServer(appName,port,logger)"⟩) ∧
    startServer (JsValue.str "app") (JsValue.num 0) JsValue.undef =
      ([], Except.error ⟨"TypeError",
          "Require parameter logger in startServer(appName,port,logger)"⟩) ∧
    startServer (JsValue.str "app") (JsValue.num 0) (JsValue.obj 0) =
      ([], Except.error ⟨"TypeError",
          "Require parameter port in startServer(appName,port,logger)"⟩) :=
  ⟨(startServer_validation_order JsValue.undef JsValue.undef JsValue.undef).1 (by decide),
   (startServer_validation_order (JsValue.str "app") (JsValue.num 0) JsValue.undef).2.1
      (by decide) (by decide),
   (startServer_validation_order (JsValue.str "app") (JsValue.num 0) (JsValue.obj 0)).2.2
      (by decide) (by decide) (by decide)⟩

end BaseServerAudit
